import Mathlib

/-!
# golang-toDoAPP: the four to-do handlers of `main.go` over a model of the collection

The program is a single file, `main.go`.  Its handlers `fetchAllTodods`, `postTodo`,
`updateTodo` and `deleteTodo` are embedded below as pure functions from the request and the
collection before the request to the reply written through `rnd.JSON` and the collection after
the request.

What the handlers call but do not define is modelled next to them, each under the name it has
in Go:

* `hex.EncodeToString` / `hex.DecodeString`, `bson.ObjectId.Hex`, `bson.IsObjectIdHex`,
  `bson.ObjectIdHex` (which panics on a bad input), `strings.TrimSpace`;
* the mgo collection calls `Find(bson.M{}).All`, `Insert`, `Update` and `RemoveId`, in the
  safe mode that `mgo.Dial` sets up: `Update` and `RemoveId` return `ErrNotFound` when no
  document matches, `Insert` fails on a duplicate `_id`, and an update document without
  `$`-operators replaces the matched document, keeping only its `_id`;
* the outcome of `json.NewDecoder(r.Body).Decode(&t)` is part of the request: either the decode
  error or the decoded `toDo`, whose absent fields hold their Go zero values;
* `bson.NewObjectId()`, `time.Now()` and a possible driver failure of the request's database
  call are the environment `Env` of a request.
-/

set_option autoImplicit false

deriving instance DecidableEq for Except

namespace TodoApp

/-! ## Strings, hex and object ids -/

/-- Instants of `time.Time`, abstracted to a counter. -/
abbrev Time := Nat

/-- The zero value of `time.Time`. -/
def zeroTime : Time := 0

/-- Raw bytes of a `bson.ObjectId` (in Go: `type ObjectId string`). -/
abbrev ObjectId := List (Fin 256)

/-- Number of bytes of the UTF-8 encoding of one character. -/
def utf8Len (c : Char) : Nat :=
  if c.toNat < 128 then 1 else if c.toNat < 2048 then 2 else if c.toNat < 65536 then 3 else 4

/-- Go's builtin `len` on a string: its length in bytes. -/
def len (s : String) : Nat := (s.data.map utf8Len).sum

/-- One digit of `hex.EncodeToString`, from the table `"0123456789abcdef"`. -/
def hexDigit (n : Nat) : Char :=
  if n < 10 then Char.ofNat (48 + n) else Char.ofNat (87 + n)

/-- The function `hex.EncodeToString`, as a list of characters. -/
def EncodeToString : List (Fin 256) → List Char
  | [] => []
  | b :: bs => hexDigit (b.val / 16) :: hexDigit (b.val % 16) :: EncodeToString bs

/-- The method `func (id ObjectId) Hex() string`. -/
def ObjectId.Hex (id : ObjectId) : String := String.mk (EncodeToString id)

/-- Value of one hex digit, `none` for a byte outside `0-9a-fA-F`
(`reverseHexTable` in `encoding/hex`). -/
def fromHexChar (c : Char) : Option Nat :=
  if 48 ≤ c.toNat ∧ c.toNat ≤ 57 then some (c.toNat - 48)
  else if 97 ≤ c.toNat ∧ c.toNat ≤ 102 then some (c.toNat - 87)
  else if 65 ≤ c.toNat ∧ c.toNat ≤ 70 then some (c.toNat - 55)
  else none

/-- The loop of `hex.Decode`: two digits make one byte; an invalid digit or an odd length is an
error (`none`; callers only test `err != nil`). -/
def decodeChars : List Char → Option (List (Fin 256))
  | [] => some []
  | [_] => none
  | p :: q :: rest =>
    match fromHexChar p, fromHexChar q with
    | some a, some b =>
      match decodeChars rest with
      | some d => some (Fin.ofNat (a * 16 + b) :: d)
      | none => none
    | _, _ => none

/-- The function `hex.DecodeString`. -/
def DecodeString (s : String) : Option (List (Fin 256)) := decodeChars s.data

/-- The function `bson.IsObjectIdHex`: `len(s) == 24` and `hex.DecodeString(s)` succeeds. -/
def IsObjectIdHex (s : String) : Bool :=
  if len s ≠ 24 then false else (DecodeString s).isSome

/-- The function `bson.ObjectIdHex`: the id of a hex string; `Except.error s` stands for
`panic(fmt.Sprintf("invalid input to ObjectIdHex: %q", s))`. -/
def ObjectIdHex (s : String) : Except String ObjectId :=
  match DecodeString s with
  | none => .error s
  | some d => if d.length ≠ 12 then .error s else .ok d

/-- The predicate `unicode.IsSpace`. -/
def isSpace (c : Char) : Bool :=
  c.toNat == 9 || c.toNat == 10 || c.toNat == 11 || c.toNat == 12 || c.toNat == 13 ||
  c.toNat == 32 || c.toNat == 0x85 || c.toNat == 0xA0 || c.toNat == 0x1680 ||
  (0x2000 ≤ c.toNat && c.toNat ≤ 0x200a) || c.toNat == 0x2028 || c.toNat == 0x2029 ||
  c.toNat == 0x202f || c.toNat == 0x205f || c.toNat == 0x3000

/-- The function `strings.TrimSpace`: drops leading and trailing white space. -/
def TrimSpace (s : String) : String :=
  String.mk ((s.data.dropWhile isSpace).reverse.dropWhile isSpace).reverse

/-! ## Data model (`main.go` lines 36-52) -/

/-- The struct `toDoModel`, the bson side of an item. -/
structure toDoModel where
  ID : ObjectId
  Title : String
  Completed : Bool
  CreatedAt : Time
deriving DecidableEq, Repr

/-- The struct `toDo`, the JSON side of an item. -/
structure toDo where
  ID : String
  Title : String
  Completed : Bool
  CreatedAt : Time
deriving DecidableEq, Repr

/-- A document of the collection `todo`.  `Insert` of a `toDoModel` writes all four fields;
the replacement document of `updateTodo` has only `title` and `completed`, so `createdAt` is
the one field that can be absent. -/
structure Doc where
  id : ObjectId
  title : String
  completed : Bool
  createdAt : Option Time
deriving DecidableEq, Repr

/-- The collection `todo`, in natural order. -/
abbrev Store := List Doc

/-- Ids of the stored documents. -/
def ids (s : Store) : List ObjectId := s.map Doc.id

/-- Errors returned by the collection calls. -/
inductive DbError
  | ErrNotFound
  | duplicateKey
  | other (msg : String)
deriving DecidableEq, Repr

/-- What a request gets from outside the handler: a driver failure of its database call (if
any), the value of `bson.NewObjectId()` (always 12 bytes) and of `time.Now()`. -/
structure Env where
  fault : Option String
  newId : ObjectId
  newId_len : newId.length = 12
  now : Time

/-- bson marshalling of a `toDoModel` (its `ID` is never empty here, so `omitempty` does not
apply). -/
def marshal (tm : toDoModel) : Doc :=
  { id := tm.ID, title := tm.Title, completed := tm.Completed, createdAt := some tm.CreatedAt }

/-- bson unmarshalling into a `toDoModel`: an absent field keeps the zero value. -/
def unmarshal (d : Doc) : toDoModel :=
  { ID := d.id, Title := d.title, Completed := d.completed,
    CreatedAt := d.createdAt.getD zeroTime }

/-- The call `db.C(collectionName).Find(bson.M{}).All(&todos)`. -/
def All (fault : Option String) (s : Store) : Except DbError (List toDoModel) :=
  match fault with
  | some m => .error (.other m)
  | none => .ok (s.map unmarshal)

/-- The call `db.C(collectionName).Insert(&tm)`: `_id` is unique in a collection. -/
def Insert (fault : Option String) (s : Store) (tm : toDoModel) : Except DbError Store :=
  match fault with
  | some m => .error (.other m)
  | none => if tm.ID ∈ ids s then .error .duplicateKey else .ok (s ++ [marshal tm])

/-- Replace the first document whose `_id` is `sel` by `{_id, title, completed}`. -/
def replaceFirst (sel : ObjectId) (title : String) (completed : Bool) : Store → Option Store
  | [] => none
  | d :: ds =>
    if d.id = sel then
      some ({ id := d.id, title := title, completed := completed, createdAt := none } :: ds)
    else
      match replaceFirst sel title completed ds with
      | some ds' => some (d :: ds')
      | none => none

/-- The call `db.C(collectionName).Update(bson.M{"_id": sel}, bson.M{"title": title,
"completed": completed})`. -/
def Update (fault : Option String) (s : Store) (sel : ObjectId) (title : String)
    (completed : Bool) : Except DbError Store :=
  match fault with
  | some m => .error (.other m)
  | none =>
    match replaceFirst sel title completed s with
    | none => .error .ErrNotFound
    | some s' => .ok s'

/-- Remove the first document whose `_id` is `sel`. -/
def removeFirst (sel : ObjectId) : Store → Option Store
  | [] => none
  | d :: ds =>
    if d.id = sel then some ds
    else
      match removeFirst sel ds with
      | some ds' => some (d :: ds')
      | none => none

/-- The call `db.C(collectionName).RemoveId(sel)`. -/
def RemoveId (fault : Option String) (s : Store) (sel : ObjectId) : Except DbError Store :=
  match fault with
  | some m => .error (.other m)
  | none =>
    match removeFirst sel s with
    | none => .error .ErrNotFound
    | some s' => .ok s'

/-! ## Requests and replies -/

/-- The value `http.StatusOK`. -/
def StatusOK : Nat := 200
/-- The value `http.StatusCreated`. -/
def StatusCreated : Nat := 201
/-- The value `http.StatusBadRequest`. -/
def StatusBadRequest : Nat := 400
/-- The value `http.StatusProcessing`. -/
def StatusProcessing : Nat := 102

/-- The value handed to `rnd.JSON`. -/
inductive Payload
  /-- The map `renderer.M{"message": message}`. -/
  | message (message : String)
  /-- The map `renderer.M{"message": message, "error": err}`. -/
  | failure (message : String) (err : DbError)
  /-- The decode error itself, as in `rnd.JSON(w, status, err)`. -/
  | decodeError (err : String)
  /-- The map `renderer.M{"message": message, "todId": todId}`. -/
  | created (message : String) (todId : String)
  /-- The map `renderer.M{"data": todoList}`. -/
  | data (todoList : List toDo)
deriving DecidableEq, Repr

/-- What a handler does with the response writer. -/
inductive Reply
  /-- The call `rnd.JSON(w, status, payload)`. -/
  | json (status : Nat) (payload : Payload)
  /-- The handler returned without writing anything. -/
  | nothing
  /-- The handler panicked in `bson.ObjectIdHex(input)`. -/
  | panicked (input : String)
deriving DecidableEq, Repr

/-- The part of `*http.Request` the handlers read: `chi.URLParam(r, "id")` and the outcome of
`json.NewDecoder(r.Body).Decode(&t)`. -/
structure Request where
  id : String
  body : Except String toDo

/-- Status code of a reply, when one was written through `rnd.JSON`. -/
def Reply.status : Reply → Option Nat
  | .json st _ => some st
  | .nothing => none
  | .panicked _ => none

/-! ## Handlers (`main.go` lines 88-209) -/

/-- The handler `fetchAllTodods`, lines 88-107. -/
def fetchAllTodods (env : Env) (s : Store) : Reply × Store :=
  match All env.fault s with
  | .error err => (.json StatusProcessing (.failure "Failed to fetch todos" err), s)
  | .ok todos =>
    let todoList : List toDo :=
      todos.foldl
        (fun acc t =>
          acc ++ [{ ID := t.ID.Hex, Title := t.Title, Completed := t.Completed,
                    CreatedAt := t.CreatedAt }])
        []
    (.json StatusOK (.data todoList), s)

/-- The handler `postTodo`, lines 109-147. -/
def postTodo (env : Env) (req : Request) (s : Store) : Reply × Store :=
  match req.body with
  | .error err => (.json StatusProcessing (.decodeError err), s)
  | .ok t =>
    if t.Title = "" then
      (.json StatusBadRequest (.message "Title is required"), s)
    else
      let tm : toDoModel :=
        { ID := env.newId, Title := t.Title, Completed := false, CreatedAt := env.now }
      match Insert env.fault s tm with
      | .error err => (.json StatusProcessing (.failure "Failed to save todo" err), s)
      | .ok s' => (.json StatusCreated (.created "Todo created successfully" tm.ID.Hex), s')

/-- The handler `updateTodo`, lines 149-186. -/
def updateTodo (env : Env) (req : Request) (s : Store) : Reply × Store :=
  let id := TrimSpace req.id
  if !IsObjectIdHex id then
    (.json StatusBadRequest (.message "Id is invalid"), s)
  else
    match req.body with
    | .error err => (.json StatusProcessing (.decodeError err), s)
    | .ok t =>
      if t.Title = "" then
        (.json StatusBadRequest (.message "Title field is required"), s)
      else
        match ObjectIdHex t.ID with
        | .error bad => (.panicked bad, s)
        | .ok sel =>
          match Update env.fault s sel t.Title t.Completed with
          | .error err => (.json StatusProcessing (.failure "Failed to udpate" err), s)
          | .ok s' => (.nothing, s')

/-- The handler `deleteTodo`, lines 188-209. -/
def deleteTodo (env : Env) (req : Request) (s : Store) : Reply × Store :=
  let id := TrimSpace req.id
  if !IsObjectIdHex id then
    (.json StatusBadRequest (.message "Id is invalid"), s)
  else
    match ObjectIdHex id with
    | .error bad => (.panicked bad, s)
    | .ok sel =>
      match RemoveId env.fault s sel with
      | .error err => (.json StatusProcessing (.failure "Failed to delete" err), s)
      | .ok s' => (.json StatusOK (.message "Todo updated successfully"), s')

/-! ## Predicates and scenarios used in the statements -/

/-- Every stored document has a non-empty title. -/
def TitlesNonEmpty (s : Store) : Prop := ∀ d ∈ s, d.title ≠ ""

/-- The reply was written with a status code of the 4xx class. -/
def Reply.is4xx (r : Reply) : Bool :=
  match r.status with
  | some st => 400 ≤ st && st ≤ 499
  | none => false

/-- Run create requests one after the other on a store; `none` as soon as one of them is not
answered with 201. -/
def createAll : List (Env × Request) → Store → Option Store
  | [], s => some s
  | (env, req) :: rest, s =>
    if (postTodo env req s).1.status = some StatusCreated then
      createAll rest (postTodo env req s).2
    else none

/-- A 12-byte id, in hex `0102030405060708090aabff`. -/
def sampleIdA : ObjectId := [1, 2, 3, 4, 5, 6, 7, 8, 9, 10, 171, 255]

/-- A second 12-byte id, in hex `000000000000000000000001`. -/
def sampleIdB : ObjectId := [0, 0, 0, 0, 0, 0, 0, 0, 0, 0, 0, 1]

/-- A third 12-byte id, in hex `000000000000000000000002`. -/
def sampleIdC : ObjectId := [0, 0, 0, 0, 0, 0, 0, 0, 0, 0, 0, 2]

/-- An environment without driver failure, whose fresh id is `sampleIdC` and whose clock
reads 7. -/
def sampleEnv : Env := { fault := none, newId := sampleIdC, newId_len := rfl, now := 7 }

/-- A collection of two items created at instants 5 and 6. -/
def sampleStore : Store :=
  [{ id := sampleIdA, title := "buy milk", completed := false, createdAt := some 5 },
   { id := sampleIdB, title := "walk dog", completed := false, createdAt := some 6 }]

/-! ## Hex encoding and object ids: helper lemmas -/

theorem fromHexChar_hexDigit_fin : ∀ k : Fin 16, fromHexChar (hexDigit k.val) = some k.val := by
  decide

theorem utf8Len_hexDigit_fin : ∀ k : Fin 16, utf8Len (hexDigit k.val) = 1 := by
  decide

theorem fromHexChar_hexDigit (n : Nat) (h : n < 16) : fromHexChar (hexDigit n) = some n :=
  fromHexChar_hexDigit_fin ⟨n, h⟩

theorem utf8Len_hexDigit (n : Nat) (h : n < 16) : utf8Len (hexDigit n) = 1 :=
  utf8Len_hexDigit_fin ⟨n, h⟩

theorem byte_of_digits (b : Fin 256) : (Fin.ofNat (b.val / 16 * 16 + b.val % 16) : Fin 256) = b := by
  apply Fin.ext
  have hb := b.isLt
  simp only [Fin.ofNat, Nat.succ_eq_add_one]
  omega

/-- Decoding undoes encoding, for every byte string. -/
theorem decodeChars_EncodeToString (bs : List (Fin 256)) :
    decodeChars (EncodeToString bs) = some bs := by
  induction bs with
  | nil => rfl
  | cons b bs ih =>
    have h1 : b.val / 16 < 16 := by have := b.isLt; omega
    have h2 : b.val % 16 < 16 := Nat.mod_lt _ (by decide)
    simp only [EncodeToString, decodeChars, fromHexChar_hexDigit _ h1, fromHexChar_hexDigit _ h2,
      ih, byte_of_digits]

theorem DecodeString_Hex (x : ObjectId) : DecodeString x.Hex = some x :=
  decodeChars_EncodeToString x

/-- Two ids with the same hex string are the same id. -/
theorem Hex_injective (x y : ObjectId) (h : x.Hex = y.Hex) : x = y := by
  have hx := DecodeString_Hex x
  rw [h, DecodeString_Hex y] at hx
  exact (Option.some.inj hx).symm

theorem length_EncodeToString (bs : List (Fin 256)) :
    (EncodeToString bs).length = 2 * bs.length := by
  induction bs with
  | nil => rfl
  | cons b bs ih => simp only [EncodeToString, List.length_cons, ih]; omega

theorem utf8Len_EncodeToString (bs : List (Fin 256)) :
    ((EncodeToString bs).map utf8Len).sum = 2 * bs.length := by
  induction bs with
  | nil => rfl
  | cons b bs ih =>
    have h1 : b.val / 16 < 16 := by have := b.isLt; omega
    have h2 : b.val % 16 < 16 := Nat.mod_lt _ (by decide)
    simp only [EncodeToString, List.map_cons, List.sum_cons, utf8Len_hexDigit _ h1,
      utf8Len_hexDigit _ h2, ih, List.length_cons]
    omega

theorem len_Hex (x : ObjectId) : len x.Hex = 2 * x.length :=
  utf8Len_EncodeToString x

theorem IsObjectIdHex_Hex (x : ObjectId) (h : x.length = 12) : IsObjectIdHex x.Hex = true := by
  simp [IsObjectIdHex, len_Hex, DecodeString_Hex, h]

theorem ObjectIdHex_Hex (x : ObjectId) (h : x.length = 12) : ObjectIdHex x.Hex = .ok x := by
  simp [ObjectIdHex, DecodeString_Hex, h]

theorem Hex_ne_empty (x : ObjectId) (h : x.length = 12) : x.Hex ≠ "" := by
  intro he
  have := len_Hex x
  rw [he, h] at this
  simp [len] at this

theorem utf8Len_of_fromHexChar (c : Char) (a : Nat) (h : fromHexChar c = some a) :
    utf8Len c = 1 := by
  unfold fromHexChar at h
  unfold utf8Len
  split_ifs at h <;> simp <;> omega

/-- A string that decodes consists of one-byte characters, two per decoded byte. -/
theorem utf8Len_of_decodeChars :
    ∀ (cs : List Char) (d : List (Fin 256)), decodeChars cs = some d →
      (cs.map utf8Len).sum = 2 * d.length
  | [], d, h => by
    simp only [decodeChars, Option.some.injEq] at h
    subst h
    rfl
  | [_], d, h => by simp [decodeChars] at h
  | p :: q :: rest, d, h => by
    simp only [decodeChars] at h
    cases ha : fromHexChar p with
    | none => simp [ha] at h
    | some a =>
      cases hb : fromHexChar q with
      | none => simp [ha, hb] at h
      | some b =>
        cases hd : decodeChars rest with
        | none => simp [ha, hb, hd] at h
        | some d0 =>
          simp only [ha, hb, hd, Option.some.injEq] at h
          subst h
          have ih := utf8Len_of_decodeChars rest d0 hd
          simp only [List.map_cons, List.sum_cons, utf8Len_of_fromHexChar p a ha,
            utf8Len_of_fromHexChar q b hb, ih, List.length_cons]
          omega

/-- A string accepted by `IsObjectIdHex` converts without panic, to an id of 12 bytes. -/
theorem ObjectIdHex_of_IsObjectIdHex (s : String) (h : IsObjectIdHex s = true) :
    ∃ x, ObjectIdHex s = .ok x ∧ x.length = 12 := by
  unfold IsObjectIdHex at h
  split_ifs at h with hlen
  cases hd : DecodeString s with
  | none => simp [hd] at h
  | some d =>
    have h2 := utf8Len_of_decodeChars s.data d hd
    have h3 : len s = 24 := by simpa using hlen
    unfold len at h3
    have h4 : d.length = 12 := by omega
    exact ⟨d, by simp [ObjectIdHex, hd, h4], h4⟩

/-- A string that `ObjectIdHex` converts is accepted by `IsObjectIdHex`. -/
theorem IsObjectIdHex_of_ObjectIdHex (s : String) (x : ObjectId) (h : ObjectIdHex s = .ok x) :
    IsObjectIdHex s = true ∧ x.length = 12 := by
  unfold ObjectIdHex at h
  cases hd : DecodeString s with
  | none => simp [hd] at h
  | some d =>
    simp only [hd] at h
    split_ifs at h with h12
    cases h
    have h2 := utf8Len_of_decodeChars s.data x hd
    have h3 : x.length = 12 := by simpa using h12
    refine ⟨?_, h3⟩
    have : len s = 24 := by unfold len; omega
    simp [IsObjectIdHex, this, hd]

/-! ## The collection calls: helper lemmas -/

theorem foldl_append_singleton {α β : Type} (f : α → β) (l : List α) (acc : List β) :
    l.foldl (fun acc t => acc ++ [f t]) acc = acc ++ l.map f := by
  induction l generalizing acc with
  | nil => simp
  | cons a l ih => simp [ih]

/-- The reply and store of `fetchAllTodods` when the find-all call succeeds. -/
theorem fetchAllTodods_eq (env : Env) (s : Store) (h : env.fault = none) :
    fetchAllTodods env s =
      (.json StatusOK (.data (s.map fun d =>
        { ID := d.id.Hex, Title := d.title, Completed := d.completed,
          CreatedAt := d.createdAt.getD zeroTime })), s) := by
  simp only [fetchAllTodods, All, h, foldl_append_singleton, List.nil_append, List.map_map]
  rfl

theorem fetchAllTodods_store (env : Env) (s : Store) : (fetchAllTodods env s).2 = s := by
  unfold fetchAllTodods
  cases All env.fault s <;> rfl

theorem Insert_ok (fault : Option String) (s s' : Store) (tm : toDoModel)
    (h : Insert fault s tm = .ok s') :
    fault = none ∧ tm.ID ∉ ids s ∧ s' = s ++ [marshal tm] := by
  unfold Insert at h
  cases fault with
  | some m => simp at h
  | none =>
    simp only at h
    split_ifs at h with hmem
    simp only [Except.ok.injEq] at h
    exact ⟨rfl, hmem, h.symm⟩

/-- The reply and store of `postTodo` when the title is non-empty and the insert succeeds. -/
theorem postTodo_eq (env : Env) (req : Request) (s : Store) (t : toDo)
    (hbody : req.body = .ok t) (htitle : t.Title ≠ "") (hfault : env.fault = none)
    (hnew : env.newId ∉ ids s) :
    postTodo env req s =
      (.json StatusCreated (.created "Todo created successfully" env.newId.Hex),
        s ++ [{ id := env.newId, title := t.Title, completed := false,
                createdAt := some env.now }]) := by
  simp [postTodo, hbody, htitle, Insert, hfault, hnew, marshal]

theorem createAll_length :
    ∀ (rs : List (Env × Request)) (s s' : Store), createAll rs s = some s' →
      s'.length = s.length + rs.length
  | [], s, s', h => by
    simp only [createAll, Option.some.injEq] at h
    subst h
    rfl
  | (env, req) :: rest, s, s', h => by
    simp only [createAll] at h
    split_ifs at h with hst
    have ih := createAll_length rest _ s' h
    have hlen : (postTodo env req s).2.length = s.length + 1 := by
      unfold postTodo at hst ⊢
      cases hb : req.body with
      | error e => simp [hb, Reply.status, StatusProcessing, StatusCreated] at hst
      | ok t =>
        simp only [hb] at hst ⊢
        split_ifs at hst ⊢ with ht
        · simp [Reply.status, StatusBadRequest, StatusCreated] at hst
        · cases hi : Insert env.fault s
              { ID := env.newId, Title := t.Title, Completed := false, CreatedAt := env.now } with
          | error e => simp [hi, Reply.status, StatusProcessing, StatusCreated] at hst
          | ok s1 =>
            obtain ⟨_, _, hs1⟩ := Insert_ok _ _ _ _ hi
            simp [hs1]
    simp only [List.length_cons]
    omega

theorem removeFirst_of_not_mem (x : ObjectId) (s : Store) (h : x ∉ ids s) :
    removeFirst x s = none := by
  induction s with
  | nil => rfl
  | cons d ds ih =>
    simp only [ids, List.map_cons, List.mem_cons, not_or] at h
    have hne : ¬ d.id = x := fun e => h.1 e.symm
    simp only [removeFirst, hne, if_false, ih (by simpa [ids] using h.2)]

theorem removeFirst_of_mem (x : ObjectId) (s : Store) (hnd : (ids s).Nodup) (hx : x ∈ ids s) :
    removeFirst x s = some (s.filter fun d => decide (d.id ≠ x)) := by
  induction s with
  | nil => simp [ids] at hx
  | cons d ds ih =>
    simp only [ids, List.map_cons, List.nodup_cons] at hnd
    by_cases hd : d.id = x
    · have hnot : ∀ e ∈ ds, e.id ≠ x := by
        intro e he hex
        exact hnd.1 (by rw [hd, ← hex]; exact List.mem_map_of_mem _ he)
      have hfil : ds.filter (fun d => decide (d.id ≠ x)) = ds :=
        List.filter_eq_self.mpr (fun e he => by simpa using hnot e he)
      simp only [removeFirst, hd, if_true]
      rw [List.filter_cons_of_neg (by simp [hd]), hfil]
    · have hx2 : x ∈ ids ds := by
        simp only [ids, List.map_cons, List.mem_cons] at hx
        rcases hx with h | h
        · exact absurd h.symm hd
        · exact h
      simp [removeFirst, hd, ih hnd.2 hx2]

theorem removeFirst_subset (x : ObjectId) :
    ∀ (s s' : Store), removeFirst x s = some s' → ∀ d ∈ s', d ∈ s
  | [], s', h => by simp [removeFirst] at h
  | e :: es, s', h => by
    simp only [removeFirst] at h
    split_ifs at h with he
    · cases h
      intro d hd
      exact List.mem_cons_of_mem _ hd
    · cases hr : removeFirst x es with
      | none => simp [hr] at h
      | some es1 =>
        simp only [hr, Option.some.injEq] at h
        subst h
        intro d hd
        rcases List.mem_cons.mp hd with h1 | h1
        · exact h1 ▸ List.mem_cons_self _ _
        · exact List.mem_cons_of_mem _ (removeFirst_subset x es es1 hr d h1)

theorem replaceFirst_mem (sel : ObjectId) (title : String) (completed : Bool) :
    ∀ (s s' : Store), replaceFirst sel title completed s = some s' →
      ∀ d ∈ s', d ∈ s ∨ d.title = title
  | [], s', h => by simp [replaceFirst] at h
  | e :: es, s', h => by
    simp only [replaceFirst] at h
    split_ifs at h with he
    · cases h
      intro d hd
      rcases List.mem_cons.mp hd with h1 | h1
      · exact Or.inr (by rw [h1])
      · exact Or.inl (List.mem_cons_of_mem _ h1)
    · cases hr : replaceFirst sel title completed es with
      | none => simp [hr] at h
      | some es1 =>
        simp only [hr, Option.some.injEq] at h
        subst h
        intro d hd
        rcases List.mem_cons.mp hd with h1 | h1
        · exact Or.inl (h1 ▸ List.mem_cons_self _ _)
        · rcases replaceFirst_mem sel title completed es es1 hr d h1 with h2 | h2
          · exact Or.inl (List.mem_cons_of_mem _ h2)
          · exact Or.inr h2

/-- The reply and store of `deleteTodo` when the path id converts to `x` and the driver does
not fail. -/
theorem deleteTodo_eq (env : Env) (req : Request) (s : Store) (x : ObjectId)
    (hid : ObjectIdHex (TrimSpace req.id) = .ok x) (hfault : env.fault = none) :
    deleteTodo env req s =
      match removeFirst x s with
      | none => (.json StatusProcessing (.failure "Failed to delete" .ErrNotFound), s)
      | some s' => (.json StatusOK (.message "Todo updated successfully"), s') := by
  have hwf := (IsObjectIdHex_of_ObjectIdHex _ _ hid).1
  simp only [deleteTodo, hwf, hid, RemoveId, hfault, Bool.not_true, Bool.false_eq_true,
    if_false]
  cases removeFirst x s <;> rfl

/-- The conversion in `deleteTodo` is applied to the string that was checked, so it never
panics. -/
theorem deleteTodo_never_panics (env : Env) (req : Request) (s : Store) (bad : String) :
    (deleteTodo env req s).1 ≠ .panicked bad := by
  unfold deleteTodo
  cases hwf : IsObjectIdHex (TrimSpace req.id) with
  | false => simp [hwf]
  | true =>
    obtain ⟨x, hx, _⟩ := ObjectIdHex_of_IsObjectIdHex _ hwf
    simp only [hwf, hx, Bool.not_true, Bool.false_eq_true, if_false]
    cases RemoveId env.fault s x <;> simp

theorem postTodo_rejects_empty (env : Env) (req : Request) (s : Store) (t : toDo)
    (hbody : req.body = .ok t) (htitle : t.Title = "") :
    postTodo env req s = (.json StatusBadRequest (.message "Title is required"), s) := by
  simp [postTodo, hbody, htitle]

theorem removeFirst_ids_sublist (x : ObjectId) :
    ∀ (s s' : Store), removeFirst x s = some s' → (ids s').Sublist (ids s)
  | [], s', h => by simp [removeFirst] at h
  | e :: es, s', h => by
    simp only [removeFirst] at h
    split_ifs at h with he
    · cases h
      exact List.sublist_cons_self _ _
    · cases hr : removeFirst x es with
      | none => simp [hr] at h
      | some es1 =>
        simp only [hr, Option.some.injEq] at h
        subst h
        exact (removeFirst_ids_sublist x es es1 hr).cons₂ _

theorem replaceFirst_ids (sel : ObjectId) (title : String) (completed : Bool) :
    ∀ (s s' : Store), replaceFirst sel title completed s = some s' → ids s' = ids s
  | [], s', h => by simp [replaceFirst] at h
  | e :: es, s', h => by
    simp only [replaceFirst] at h
    split_ifs at h with he
    · cases h
      rfl
    · cases hr : replaceFirst sel title completed es with
      | none => simp [hr] at h
      | some es1 =>
        simp only [hr, Option.some.injEq] at h
        subst h
        simp only [ids, List.map_cons, List.cons.injEq, true_and]
        exact replaceFirst_ids sel title completed es es1 hr

/-- The handlers keep the ids of the collection pairwise distinct, as the unique index on
`_id` requires. -/
theorem handlers_keep_ids_nodup (env : Env) (req : Request) (s : Store)
    (h : (ids s).Nodup) :
    (ids (fetchAllTodods env s).2).Nodup ∧ (ids (postTodo env req s).2).Nodup ∧
      (ids (updateTodo env req s).2).Nodup ∧ (ids (deleteTodo env req s).2).Nodup := by
  refine ⟨by rw [fetchAllTodods_store]; exact h, ?_, ?_, ?_⟩
  · unfold postTodo
    cases hb : req.body with
    | error e => exact h
    | ok t =>
      simp only
      split_ifs with ht
      · exact h
      · cases hi : Insert env.fault s
            { ID := env.newId, Title := t.Title, Completed := false, CreatedAt := env.now } with
        | error e => exact h
        | ok s1 =>
          obtain ⟨_, hnew, hs1⟩ := Insert_ok _ _ _ _ hi
          simp only [hs1, ids, List.map_append, List.map_cons, List.map_nil, marshal]
          rw [List.nodup_append]
          refine ⟨h, List.nodup_singleton _, ?_⟩
          intro a ha hb2
          rw [List.mem_singleton] at hb2
          exact hnew (hb2 ▸ ha)
  · unfold updateTodo
    simp only
    split_ifs with hwf
    · exact h
    · cases hb : req.body with
      | error e => exact h
      | ok t =>
        simp only
        split_ifs with ht
        · exact h
        · cases ho : ObjectIdHex t.ID with
          | error bad => exact h
          | ok sel =>
            simp only [Update]
            cases hf : env.fault with
            | some m => exact h
            | none =>
              simp only
              cases hr : replaceFirst sel t.Title t.Completed s with
              | none => exact h
              | some s1 =>
                simp only
                rw [replaceFirst_ids _ _ _ s s1 hr]
                exact h
  · unfold deleteTodo
    simp only
    split_ifs with hwf
    · exact h
    · cases ho : ObjectIdHex (TrimSpace req.id) with
      | error bad => exact h
      | ok sel =>
        simp only [RemoveId]
        cases hf : env.fault with
        | some m => exact h
        | none =>
          simp only
          cases hr : removeFirst sel s with
          | none => exact h
          | some s1 => exact h.sublist (removeFirst_ids_sublist _ s s1 hr)

/-- The reply and store of `updateTodo` when the path id is well formed, the title is
non-empty, the id of the body converts to `sel` and the driver does not fail: the document
is selected by `sel`, the id of the body. -/
theorem updateTodo_eq (env : Env) (req : Request) (s : Store) (t : toDo) (sel : ObjectId)
    (hwf : IsObjectIdHex (TrimSpace req.id) = true) (hbody : req.body = .ok t)
    (htitle : t.Title ≠ "") (hsel : ObjectIdHex t.ID = .ok sel) (hfault : env.fault = none) :
    updateTodo env req s =
      match replaceFirst sel t.Title t.Completed s with
      | none => (.json StatusProcessing (.failure "Failed to udpate" .ErrNotFound), s)
      | some s' => (.nothing, s') := by
  simp only [updateTodo, hwf, hbody, htitle, hsel, Update, hfault, Bool.not_true,
    Bool.false_eq_true, if_false]
  cases replaceFirst sel t.Title t.Completed s <;> rfl

/-! ## Create -/

/-- C3: a create request with a non-empty decoded title whose insert succeeds is answered
with 201 and the hex form of the fresh id, which is non-empty and was not in the store; the
store afterwards is the old store followed by exactly one document with that id, the
request's title, completed=false and createdAt=now, whatever id and completed the body
carried; a following successful list contains the item with that id, title and
completed=false. -/
theorem postTodo_creates (env : Env) (req : Request) (s s' : Store) (t : toDo)
    (hbody : req.body = .ok t) (htitle : t.Title ≠ "")
    (hins : Insert env.fault s
      { ID := env.newId, Title := t.Title, Completed := false, CreatedAt := env.now } = .ok s') :
    postTodo env req s =
        (.json StatusCreated (.created "Todo created successfully" env.newId.Hex), s') ∧
      env.newId.Hex ≠ "" ∧
      env.newId ∉ ids s ∧
      s' = s ++ [{ id := env.newId, title := t.Title, completed := false,
                   createdAt := some env.now }] ∧
      ∀ env2 : Env, env2.fault = none →
        ∃ l, (fetchAllTodods env2 s').1 = .json StatusOK (.data l) ∧
          ({ ID := env.newId.Hex, Title := t.Title, Completed := false,
             CreatedAt := env.now } : toDo) ∈ l := by
  obtain ⟨hfault, hnew, hs'⟩ := Insert_ok _ _ _ _ hins
  have hs2 : s' = s ++ [⟨env.newId, t.Title, false, some env.now⟩] := by
    simpa [marshal] using hs'
  refine ⟨?_, Hex_ne_empty _ env.newId_len, hnew, hs2, ?_⟩
  · rw [postTodo_eq env req s t hbody htitle hfault hnew, hs2]
  · intro env2 h2
    refine ⟨_, by rw [fetchAllTodods_eq env2 s' h2], ?_⟩
    rw [hs2]
    simp [zeroTime]

/-- Witness of C3: creating "buy bread" (the body also carrying an id and completed=true) in
the sample collection. -/
theorem postTodo_creates_witness :
    postTodo sampleEnv { id := "", body := .ok ⟨"zzz", "buy bread", true, 0⟩ } sampleStore =
        (.json StatusCreated (.created "Todo created successfully" sampleEnv.newId.Hex),
          sampleStore ++ [{ id := sampleIdC, title := "buy bread", completed := false,
                            createdAt := some 7 }]) :=
  (postTodo_creates sampleEnv { id := "", body := .ok ⟨"zzz", "buy bread", true, 0⟩ } sampleStore
    (sampleStore ++ [{ id := sampleIdC, title := "buy bread", completed := false,
                       createdAt := some 7 }])
    ⟨"zzz", "buy bread", true, 0⟩ rfl (by decide) (by decide)).1

/-- C4: a create request whose decoded title is the empty string is answered with 400 and
the store is unchanged. -/
theorem postTodo_empty_title (env : Env) (req : Request) (s : Store) (t : toDo)
    (hbody : req.body = .ok t) (htitle : t.Title = "") :
    postTodo env req s = (.json StatusBadRequest (.message "Title is required"), s) :=
  postTodo_rejects_empty env req s t hbody htitle

/-- Witness of C4: a body without a title field decodes to the zero-valued struct. -/
theorem postTodo_empty_title_witness :
    postTodo sampleEnv { id := "", body := .ok ⟨"", "", false, 0⟩ } sampleStore =
      (.json StatusBadRequest (.message "Title is required"), sampleStore) :=
  postTodo_empty_title sampleEnv { id := "", body := .ok ⟨"", "", false, 0⟩ } sampleStore
    ⟨"", "", false, 0⟩ rfl rfl

/-! ## Identifier validation -/

/-- C5: when the trimmed path id is not a well-formed object-id hex string, `updateTodo` and
`deleteTodo` answer 400 and leave the store unchanged. -/
theorem malformed_id_rejected (env : Env) (req : Request) (s : Store)
    (hid : IsObjectIdHex (TrimSpace req.id) = false) :
    updateTodo env req s = (.json StatusBadRequest (.message "Id is invalid"), s) ∧
      deleteTodo env req s = (.json StatusBadRequest (.message "Id is invalid"), s) := by
  simp [updateTodo, deleteTodo, hid]

/-- Witness of C5: the path id ` 12xyz ` on the sample collection. -/
theorem malformed_id_rejected_witness :
    IsObjectIdHex (TrimSpace " 12xyz ") = false ∧
      updateTodo sampleEnv { id := " 12xyz ", body := .ok ⟨"", "x", true, 0⟩ } sampleStore =
        (.json StatusBadRequest (.message "Id is invalid"), sampleStore) ∧
      deleteTodo sampleEnv { id := " 12xyz ", body := .ok ⟨"", "x", true, 0⟩ } sampleStore =
        (.json StatusBadRequest (.message "Id is invalid"), sampleStore) :=
  ⟨by decide,
    malformed_id_rejected sampleEnv { id := " 12xyz ", body := .ok ⟨"", "x", true, 0⟩ }
      sampleStore (by decide)⟩

/-! ## List -/

/-- C8: when the find-all succeeds, `fetchAllTodods` answers 200 with a list that has exactly
one item per stored document, in order: the item carries the hex string of the record's id
and the record's title, completed and createdAt as the find-all returned them (for a stored
document: its createdAt, or the zero time when it has none); the store is not modified;
after N successful creates on the empty store the list has N items. -/
theorem fetchAllTodods_lists (env : Env) (s : Store) (todos : List toDoModel)
    (hfind : All env.fault s = .ok todos) :
    ∃ l : List toDo,
      fetchAllTodods env s = (.json StatusOK (.data l), s) ∧
      l.length = s.length ∧
      List.Forall₂
        (fun t item => item.ID = t.ID.Hex ∧ item.Title = t.Title ∧
          item.Completed = t.Completed ∧ item.CreatedAt = t.CreatedAt) todos l ∧
      List.Forall₂
        (fun d item => item.ID = d.id.Hex ∧ item.Title = d.title ∧
          item.Completed = d.completed ∧ item.CreatedAt = d.createdAt.getD zeroTime) s l ∧
      ∀ rs : List (Env × Request), createAll rs [] = some s → l.length = rs.length := by
  have hfault : env.fault = none := by
    unfold All at hfind
    cases hf : env.fault with
    | none => rfl
    | some m => simp [hf] at hfind
  have htodos : todos = s.map unmarshal := by
    simpa [All, hfault] using hfind.symm
  refine ⟨_, fetchAllTodods_eq env s hfault, by simp, ?_, ?_, ?_⟩
  · rw [htodos, List.forall₂_map_right_iff, List.forall₂_map_left_iff]
    exact List.forall₂_same.mpr (fun d _ => ⟨rfl, rfl, rfl, rfl⟩)
  · rw [List.forall₂_map_right_iff]
    exact List.forall₂_same.mpr (fun d _ => ⟨rfl, rfl, rfl, rfl⟩)
  · intro rs hrs
    have := createAll_length rs [] s hrs
    simp only [List.length_map, this, List.length_nil, Nat.zero_add]

/-- Witness of C8: listing the sample collection. -/
theorem fetchAllTodods_lists_witness :
    ∃ l : List toDo,
      fetchAllTodods sampleEnv sampleStore = (.json StatusOK (.data l), sampleStore) ∧
      l.length = 2 :=
  let ⟨l, h1, h2, _, _, _⟩ :=
    fetchAllTodods_lists sampleEnv sampleStore (sampleStore.map unmarshal) rfl
  ⟨l, h1, h2⟩

/-! ## Delete -/

/-- C6: in a collection (ids pairwise distinct) that holds a document with id X, a first
`deleteTodo` whose path id converts to X is answered with 200 and leaves the store without
X and with every other document unchanged, so that a following list does not show X; a
second `deleteTodo` on the same id is answered with a failure carrying `ErrNotFound` (status
102, not success) and leaves the store unchanged. -/
theorem deleteTodo_twice (env1 env2 : Env) (req : Request) (s : Store) (x : ObjectId)
    (hnodup : (ids s).Nodup) (hx : x ∈ ids s)
    (hid : ObjectIdHex (TrimSpace req.id) = .ok x)
    (h1 : env1.fault = none) (h2 : env2.fault = none) :
    ∃ s' : Store,
      deleteTodo env1 req s = (.json StatusOK (.message "Todo updated successfully"), s') ∧
      x ∉ ids s' ∧
      s' = s.filter (fun d => decide (d.id ≠ x)) ∧
      (∀ (env3 : Env) (l : List toDo),
        (fetchAllTodods env3 s').1 = .json StatusOK (.data l) → ∀ item ∈ l, item.ID ≠ x.Hex) ∧
      deleteTodo env2 req s' =
        (.json StatusProcessing (.failure "Failed to delete" .ErrNotFound), s') := by
  have hx' : x ∉ ids (s.filter (fun d => decide (d.id ≠ x))) := by
    simp [ids]
  refine ⟨s.filter (fun d => decide (d.id ≠ x)), ?_, hx', rfl, ?_, ?_⟩
  · rw [deleteTodo_eq env1 req s x hid h1, removeFirst_of_mem x s hnodup hx]
  · intro env3 l hl item hitem
    cases hf : env3.fault with
    | some m =>
      simp [fetchAllTodods, All, hf, StatusProcessing, StatusOK] at hl
    | none =>
      rw [fetchAllTodods_eq env3 _ hf] at hl
      simp only [Reply.json.injEq, Payload.data.injEq, true_and] at hl
      subst hl
      simp only [List.mem_map, List.mem_filter] at hitem
      obtain ⟨d, ⟨_, hd⟩, rfl⟩ := hitem
      intro heq
      exact (of_decide_eq_true hd) (Hex_injective _ _ heq)
  · rw [deleteTodo_eq env2 req _ x hid h2, removeFirst_of_not_mem x _ hx']

/-- Witness of C6: deleting the first item of the sample collection twice. -/
theorem deleteTodo_twice_witness :
    ∃ s' : Store,
      deleteTodo sampleEnv { id := " 0102030405060708090aabff", body := .error "EOF" }
          sampleStore = (.json StatusOK (.message "Todo updated successfully"), s') ∧
      deleteTodo sampleEnv { id := " 0102030405060708090aabff", body := .error "EOF" } s' =
        (.json StatusProcessing (.failure "Failed to delete" .ErrNotFound), s') :=
  let ⟨s', h1, _, _, _, h5⟩ :=
    deleteTodo_twice sampleEnv sampleEnv
      { id := " 0102030405060708090aabff", body := .error "EOF" } sampleStore sampleIdA
      (by decide) (by decide) (by decide) rfl rfl
  ⟨s', h1, h5⟩

/-! ## The title invariant -/

/-- C9: if every stored document has a non-empty title before a request to
`fetchAllTodods`, `postTodo`, `updateTodo` or `deleteTodo`, the same holds after it, for
every request and environment. -/
theorem handlers_keep_titles (env : Env) (req : Request) (s : Store) (h : TitlesNonEmpty s) :
    TitlesNonEmpty (fetchAllTodods env s).2 ∧ TitlesNonEmpty (postTodo env req s).2 ∧
      TitlesNonEmpty (updateTodo env req s).2 ∧ TitlesNonEmpty (deleteTodo env req s).2 := by
  refine ⟨by rw [fetchAllTodods_store]; exact h, ?_, ?_, ?_⟩
  · unfold postTodo
    cases hb : req.body with
    | error e => exact h
    | ok t =>
      simp only
      split_ifs with ht
      · exact h
      · cases hi : Insert env.fault s
            { ID := env.newId, Title := t.Title, Completed := false, CreatedAt := env.now } with
        | error e => exact h
        | ok s1 =>
          obtain ⟨_, _, hs1⟩ := Insert_ok _ _ _ _ hi
          simp only
          intro d hd
          rw [hs1] at hd
          rcases List.mem_append.mp hd with h3 | h3
          · exact h d h3
          · simp only [marshal, List.mem_singleton] at h3
            rw [h3]
            exact ht
  · unfold updateTodo
    simp only
    split_ifs with hwf
    · exact h
    · cases hb : req.body with
      | error e => exact h
      | ok t =>
        simp only
        split_ifs with ht
        · exact h
        · cases ho : ObjectIdHex t.ID with
          | error bad => exact h
          | ok sel =>
            simp only [Update]
            cases hf : env.fault with
            | some m => exact h
            | none =>
              simp only
              cases hr : replaceFirst sel t.Title t.Completed s with
              | none => exact h
              | some s1 =>
                intro d hd
                rcases replaceFirst_mem _ _ _ s s1 hr d hd with h3 | h3
                · exact h d h3
                · rw [h3]
                  exact ht
  · unfold deleteTodo
    simp only
    split_ifs with hwf
    · exact h
    · cases ho : ObjectIdHex (TrimSpace req.id) with
      | error bad => exact h
      | ok sel =>
        simp only [RemoveId]
        cases hf : env.fault with
        | some m => exact h
        | none =>
          simp only
          cases hr : removeFirst sel s with
          | none => exact h
          | some s1 =>
            intro d hd
            exact h d (removeFirst_subset _ s s1 hr d hd)

/-- Witness of C9: the sample collection and an update of its first item. -/
theorem handlers_keep_titles_witness :
    TitlesNonEmpty sampleStore ∧
      TitlesNonEmpty (updateTodo sampleEnv
        { id := "0102030405060708090aabff",
          body := .ok ⟨"0102030405060708090aabff", "buy oat milk", true, 0⟩ } sampleStore).2 :=
  have h0 : TitlesNonEmpty sampleStore := by
    intro d hd
    simp only [sampleStore, List.mem_cons, List.mem_singleton, List.not_mem_nil, or_false] at hd
    rcases hd with h | h <;> rw [h] <;> decide
  ⟨h0, (handlers_keep_titles sampleEnv _ sampleStore h0).2.2.1⟩

/-! ## Client input errors -/

/-- C7 fails on the code: a request body that is malformed JSON is answered with status 102
(`http.StatusProcessing`), which is not of the 4xx class, and the payload is the decode error
itself, not a message; this on create and, once the path id has passed validation, on
update.  The sibling client-input branch of the same handler, the empty title, answers 400
with a message.  A malformed id in the body of an update gets no answer at all: the handler
panics. -/
theorem malformed_json_not_4xx :
    (postTodo sampleEnv { id := "", body := .error "unexpected EOF" } sampleStore).1 =
        .json 102 (.decodeError "unexpected EOF") ∧
      (postTodo sampleEnv { id := "", body := .error "unexpected EOF" } sampleStore).1.is4xx =
        false ∧
      (updateTodo sampleEnv
          { id := "0102030405060708090aabff", body := .error "unexpected EOF" } sampleStore).1 =
        .json 102 (.decodeError "unexpected EOF") ∧
      (updateTodo sampleEnv
          { id := "0102030405060708090aabff", body := .error "unexpected EOF" }
          sampleStore).1.is4xx = false ∧
      (postTodo sampleEnv { id := "", body := .ok ⟨"", "", false, 0⟩ } sampleStore).1 =
        .json 400 (.message "Title is required") ∧
      (updateTodo sampleEnv
          { id := "0102030405060708090aabff", body := .ok ⟨"12xyz", "buy oat milk", false, 0⟩ }
          sampleStore).1 = .panicked "12xyz" := by
  decide

/-! ## Update -/

/-- C1 fails on the code: updating the first item of the sample collection, with the same id
in the path and in the body, succeeds and stores the new title and completed under the same
id, but the stored document no longer has a createdAt: it was 5 before, and the list after
the update shows the zero time.  With the second item's id in the body instead, the update
succeeds too and the item that the path names keeps its old title and completed. -/
theorem updateTodo_drops_createdAt :
    updateTodo sampleEnv
        { id := "0102030405060708090aabff",
          body := .ok ⟨"0102030405060708090aabff", "buy oat milk", true, 0⟩ } sampleStore =
      (.nothing,
        [{ id := sampleIdA, title := "buy oat milk", completed := true, createdAt := none },
         { id := sampleIdB, title := "walk dog", completed := false, createdAt := some 6 }]) ∧
    (fetchAllTodods sampleEnv sampleStore).1 =
      .json 200 (.data
        [⟨"0102030405060708090aabff", "buy milk", false, 5⟩,
         ⟨"000000000000000000000001", "walk dog", false, 6⟩]) ∧
    (fetchAllTodods sampleEnv
        [{ id := sampleIdA, title := "buy oat milk", completed := true, createdAt := none },
         { id := sampleIdB, title := "walk dog", completed := false, createdAt := some 6 }]).1 =
      .json 200 (.data
        [⟨"0102030405060708090aabff", "buy oat milk", true, 0⟩,
         ⟨"000000000000000000000001", "walk dog", false, 6⟩]) ∧
    (updateTodo sampleEnv
        { id := "0102030405060708090aabff",
          body := .ok ⟨"000000000000000000000001", "feed cat", true, 0⟩ } sampleStore).1 =
      .nothing ∧
    (updateTodo sampleEnv
        { id := "0102030405060708090aabff",
          body := .ok ⟨"000000000000000000000001", "feed cat", true, 0⟩ } sampleStore).2.head? =
      some { id := sampleIdA, title := "buy milk", completed := false, createdAt := some 5 } := by
  decide

/-- C2 fails on the code: with the first item's id in the path and the second item's id in
the body, the update succeeds, overwrites the second item and leaves the first, the one the
path names, as it was. -/
theorem updateTodo_selects_body_id :
    updateTodo sampleEnv
        { id := "0102030405060708090aabff",
          body := .ok ⟨"000000000000000000000001", "buy oat milk", true, 0⟩ } sampleStore =
      (.nothing,
        [{ id := sampleIdA, title := "buy milk", completed := false, createdAt := some 5 },
         { id := sampleIdB, title := "buy oat milk", completed := true, createdAt := none }]) := by
  decide

/-- C10 fails on the code: the path id passes `IsObjectIdHex`, the body carries a title and
no id, and `ObjectIdHex` is applied to the body's id, the empty string, which does not pass
`IsObjectIdHex`: the handler panics, before any storage call. -/
theorem updateTodo_panics_on_body_id :
    IsObjectIdHex (TrimSpace "0102030405060708090aabff") = true ∧
      IsObjectIdHex "" = false ∧
      updateTodo sampleEnv
          { id := "0102030405060708090aabff", body := .ok ⟨"", "buy oat milk", false, 0⟩ }
          sampleStore =
        (.panicked "", sampleStore) := by
  decide

end TodoApp
